/-
  Verification of the PDI NOMAD plugin's log/spreadsheet ingestion and
  derived-quantity computation pipeline, as implemented in
  `src/pdi_nomad_plugin/utils.py` and
  `src/pdi_nomad_plugin/mbe/epic_parser/parser.py`.

  Each Python function the claims touch is shallowly embedded as a Lean
  definition; floating-point times and values are modelled as rationals
  (where executability matters) or reals (where `exp` appears).
-/
import Mathlib

set_option maxHeartbeats 1000000

/- ================================================================
   Shutter step-hold resampling
   (utils.calculate_impinging_flux, utils.py lines 800-817, duplicated
   verbatim in ParserEpicPDI.parse, parser.py lines 497-514)

   Python:
     shutter_vector = np.zeros(len(time_vector))
     if shutters is not None:
         for _, shutter_status in shutters.iterrows():
             shutter_change_time = shutter_status['TimeDifference']
             shutter_value = shutter_status[f'..._Sh']
             for i, time_value in enumerate(time_vector):
                 if time_value >= shutter_change_time:
                     shutter_vector[i:] = shutter_value
                     break
   ================================================================ -/

variable {α β : Type} [LinearOrder α]

/-- `v[i:] = x` on a Python/numpy array: keep the first `i` entries,
overwrite the rest with `x`. -/
def setFrom (v : List β) (i : ℕ) (x : β) : List β :=
  v.take i ++ List.replicate (v.length - i) x

/-- The inner `for i, time_value in enumerate(time_vector): if time_value >=
shutter_change_time: ...; break` search: index of the first element `≥ c`. -/
def firstIdxGe (c : α) : List α → Option ℕ
  | [] => none
  | t :: ts => if c ≤ t then some 0 else (firstIdxGe c ts).map (· + 1)

/-- One iteration of the outer `for _, shutter_status in shutters.iterrows()`
loop: overwrite `shutter_vector[i:]` at the first index whose time is `≥` the
shutter change time; do nothing when no such index exists. -/
def applyShutter (timeVector : List α) (v : List β) (s : α × β) : List β :=
  match firstIdxGe s.1 timeVector with
  | some i => setFrom v i s.2
  | none => v

/-- The complete shutter-modulation vector construction: start from
`np.zeros(len(time_vector))` and fold the shutter rows over it. -/
def shutterVector [Zero β] (shutters : List (α × β)) (timeVector : List α) :
    List β :=
  shutters.foldl (applyShutter timeVector) (List.replicate timeVector.length 0)

/-- Step-hold with default `d`: the value of the last listed shutter sample
whose change time is `≤ t`, or `d` when no sample qualifies. -/
def holdFrom (d : β) : List (α × β) → α → β
  | [], _ => d
  | s :: rest, t => holdFrom (if s.1 ≤ t then s.2 else d) rest t

/-- The step-hold value at time `t`: the value of the last listed shutter
sample whose change time is `≤ t`, and `0` when every sample is strictly
later than `t`.  When the samples are listed in increasing time order this is
exactly "the most recently observed shutter value at or before `t`". -/
def holdAt [Zero β] (shutters : List (α × β)) (t : α) : β :=
  holdFrom 0 shutters t

/- ================================================================
   Impinging-flux computation
   (utils.calculate_impinging_flux, utils.py lines 779-820, and the
   inline copy in ParserEpicPDI.parse, parser.py lines 466-542)
   ================================================================ -/

/-- One block of the parsed `Fitting.txt` calibration file: the two
comma-separated `Coeff` components and the `BEPtoFlux` factor
(`a_param`, `t0_param` in degree Celsius, `bep_to_flux`). -/
structure FitEntry where
  aParam : ℝ
  t0Celsius : ℝ
  bepToFlux : ℝ

/-- `ureg.Quantity(x, '°C').to('kelvin').magnitude`. -/
noncomputable def celsiusToKelvin (c : ℝ) : ℝ := c + 273.15

/-- The unmodulated Arrhenius-form flux,
`bep_to_flux * exp(a_param) * exp(t0_kelvin / temperature_kelvin)`,
mapped over the temperature samples (numpy broadcasting). -/
noncomputable def rawFlux (fit : FitEntry) (tempCelsius : List ℝ) : List ℝ :=
  tempCelsius.map fun T =>
    fit.bepToFlux * Real.exp fit.aParam *
      Real.exp (celsiusToKelvin fit.t0Celsius / celsiusToKelvin T)

/-- Python runtime errors surfaced by the embedded functions. -/
inductive PyRuntimeError where
  | unboundLocalError
deriving DecidableEq

/-- Result of `utils.calculate_impinging_flux`: the modulated flux and
whether the `'No Shutters.txt file found'` error was logged. -/
structure UtilsFluxResult where
  modulatedFlux : List ℝ
  noShutterErrorLogged : Bool

/-- `utils.calculate_impinging_flux` (utils.py lines 779-820).  When the
source row's `EPIC_loop` key is absent from `fitting`, the Python `else`
branch sets `modulated_flux = None` but the `return` statement still reads
`a_param`, `t0_param_pint` and `bep_to_flux_pint`, which were only assigned
inside the matched branch, so the call raises `UnboundLocalError`.  When
`shutters is None` the vector is replaced by `np.ones` and an error is
logged. -/
noncomputable def utils_calculate_impinging_flux
    (fitting : String → Option FitEntry) (epicLoop : String)
    (tempCelsius timeVector : List ℝ)
    (shutters : Option (List (ℝ × ℝ))) :
    Except PyRuntimeError UtilsFluxResult :=
  match fitting epicLoop with
  | some fit =>
      let sv : List ℝ :=
        match shutters with
        | some sh => shutterVector sh timeVector
        | none => List.replicate timeVector.length 1
      .ok ⟨List.zipWith (· * ·) (rawFlux fit tempCelsius) sv, shutters.isNone⟩
  | none => .error .unboundLocalError

/-- The parser's inline modulated-flux computation (parser.py lines
488-516): identical to the utils version except that when `shutters is
None` the modulation vector stays `np.zeros(len(time_vector))` (there is no
`else` branch), so the flux is zeroed out. -/
noncomputable def parser_modulated_flux (fit : FitEntry)
    (tempCelsius timeVector : List ℝ)
    (shutters : Option (List (ℝ × ℝ))) : List ℝ :=
  let sv : List ℝ :=
    match shutters with
    | some sh => shutterVector sh timeVector
    | none => List.replicate timeVector.length 0
  List.zipWith (· * ·) (rawFlux fit tempCelsius) sv

/-- Outcome of the parser's flux block for one sources row. -/
structure ParserFluxOutcome where
  flux : Option (List ℝ)
  warnedNoFitting : Bool

/-- The guard structure of parser.py lines 466-542:
`if sources_row["EPIC_loop"] and fitting is not None and source_type !=
"SUB": ... if EPIC_loop in fitting.keys(): <compute flux> ...
elif fitting is None: logger.warning(...)`.
A present `fitting` table with no entry for the row's channel silently
skips the flux (no warning, no exception). -/
noncomputable def parser_flux_block
    (fitting : Option (String → Option FitEntry)) (epicLoop : Option String)
    (isSub : Bool) (tempCelsius timeVector : List ℝ)
    (shutters : Option (List (ℝ × ℝ))) : ParserFluxOutcome :=
  match fitting, epicLoop with
  | some f, some loop =>
      if isSub then ⟨none, false⟩
      else
        match f loop with
        | some fit =>
            ⟨some (parser_modulated_flux fit tempCelsius timeVector shutters),
              false⟩
        | none => ⟨none, false⟩
  | none, _ => ⟨none, true⟩
  | some _, none => ⟨none, false⟩

/- ================================================================
   NaN-aware content comparison and create_archive
   (utils.nan_equal / list_nan_equal / dict_nan_equal, utils.py lines
   80-115; utils.create_archive, lines 118-142; get_hash_ref, 76-77)
   ================================================================ -/

mutual
/-- A Python/YAML value as handled by `nan_equal`: floats (with NaN kept
apart, since `a == b` is false for NaN), strings, lists and dicts. -/
inductive PyVal where
  | float (q : ℚ)
  | nan
  | str (s : String)
  | list (xs : PyList)
  | dict (d : PyDict)
inductive PyList where
  | nil
  | cons (v : PyVal) (rest : PyList)
inductive PyDict where
  | nil
  | cons (k : String) (v : PyVal) (rest : PyDict)
end

/-- `dict.keys()`. -/
def PyDict.keys : PyDict → List String
  | .nil => []
  | .cons k _ rest => k :: rest.keys

/-- `dict[key]` (first binding wins; Python dicts have unique keys). -/
def PyDict.lookup : PyDict → String → Option PyVal
  | .nil, _ => none
  | .cons k v rest, key => if k = key then some v else rest.lookup key

/-- `set(dict1.keys()) == set(dict2.keys())`. -/
def sameKeys (d1 d2 : PyDict) : Bool :=
  d1.keys.all (fun k => d2.keys.contains k) &&
    d2.keys.all (fun k => d1.keys.contains k)

mutual
/-- `utils.nan_equal`: float comparison treating NaN = NaN, recursing into
dicts and lists, plain equality otherwise (and `False` across types). -/
def nanEqual : PyVal → PyVal → Bool
  | .float a, .float b => a == b
  | .nan, .nan => true
  | .str a, .str b => a == b
  | .list xs, .list ys => listNanEqual xs ys
  | .dict d1, .dict d2 => sameKeys d1 d2 && dictValsNanEqual d1 d2
  | _, _ => false
/-- `utils.list_nan_equal`: equal lengths and pointwise `nan_equal`. -/
def listNanEqual : PyList → PyList → Bool
  | .nil, .nil => true
  | .cons a as, .cons b bs => nanEqual a b && listNanEqual as bs
  | _, _ => false
/-- The `for key in dict1: nan_equal(dict1[key], dict2[key])` loop of
`utils.dict_nan_equal` (the key sets are checked separately). -/
def dictValsNanEqual : PyDict → PyDict → Bool
  | .nil, _ => true
  | .cons k v rest, d2 =>
      (match d2.lookup k with
        | some w => nanEqual v w
        | none => false) && dictValsNanEqual rest d2
end

/-- `utils.dict_nan_equal`: equal key sets, then per-key `nan_equal`. -/
def dictNanEqual (d1 d2 : PyDict) : Bool :=
  sameKeys d1 d2 && dictValsNanEqual d1 d2

/-- `utils.get_reference`. -/
def get_reference (uploadId entryId : String) : String :=
  "../uploads/" ++ uploadId ++ "/archive/" ++ entryId

/-- `utils.get_entry_id`; `nomad.utils.hash` is external, passed in as
`hashFn`. -/
def get_entry_id (hashFn : String → String → String)
    (uploadId filename : String) : String :=
  hashFn uploadId filename

/-- `utils.get_hash_ref`. -/
def get_hash_ref (hashFn : String → String → String)
    (uploadId filename : String) : String :=
  get_reference uploadId (get_entry_id hashFn uploadId filename) ++ "#data"

/-- The upload's raw-file store: filename to persisted (YAML round-tripped)
dict content. -/
def lookupRawFile (files : List (String × PyDict)) (filename : String) :
    Option PyDict :=
  match files with
  | [] => none
  | (n, d) :: rest =>
      if n = filename then some d else lookupRawFile rest filename

/-- `context.raw_path_exists(filename)`. -/
def raw_path_exists (files : List (String × PyDict)) (filename : String) :
    Bool :=
  (lookupRawFile files filename).isSome

/-- `context.raw_file(filename, 'w')` followed by the json/yaml dump. -/
def writeRawFile (files : List (String × PyDict)) (filename : String)
    (d : PyDict) : List (String × PyDict) :=
  files.filter (fun p => p.1 != filename) ++ [(filename, d)]

/-- Observable outcome of one `utils.create_archive` call: the raw-file
store afterwards, whether a write (and `process_updated_raw_file`)
happened, whether the conflict `logger.error` fired, and the returned
value. -/
structure CreateArchiveResult where
  files : List (String × PyDict)
  wrote : Bool
  conflictLogged : Bool
  ret : Option String

/-- `utils.create_archive` (utils.py lines 118-142).  A `ClientContext`
returns `None` immediately; otherwise the file is written whenever it does
not exist, `overwrite` is set, or the existing content is NaN-aware equal
to the new content; in the remaining case (exists, different content, no
overwrite) an error is logged and nothing is written.  Every non-client
call returns `get_hash_ref(upload_id, filename)`. -/
def create_archive (hashFn : String → String → String)
    (isClientContext : Bool) (uploadId : String)
    (files : List (String × PyDict)) (entryDict : PyDict)
    (filename : String) (overwrite : Bool) : CreateArchiveResult :=
  let fileExists := raw_path_exists files filename
  if isClientContext then ⟨files, false, false, none⟩
  else
    let dictsAreEqual : Bool :=
      match lookupRawFile files filename with
      | some existing => dictNanEqual existing entryDict
      | none => false
    if !fileExists || overwrite || dictsAreEqual then
      ⟨writeRawFile files filename entryDict, true, false,
        some (get_hash_ref hashFn uploadId filename)⟩
    else
      ⟨files, false, true, some (get_hash_ref hashFn uploadId filename)⟩

/- ================================================================
   Per-channel log reading and time alignment
   (utils.epiclog_read_handle_empty, utils.py lines 573-597;
   utils.handle_unit, lines 600-618;
   utils.epiclog_parse_timeseries, lines 621-666)

   A log file is modelled as its parsed content: a list of
   (absolute naive timestamp in seconds, value) samples; the filesystem
   plus the external `epiclog_read` is the partial map `fs`.
   `tz_localize` is modelled as adding a fixed zone offset.
   ================================================================ -/

/-- The states a dataframe cell can be in, as distinguished by
`epiclog_read_handle_empty`: column absent, empty Series, NaN cell, or a
string value. -/
inductive CellVal where
  | absentColumn
  | emptySeries
  | nanCell
  | strVal (s : String)

/-- The filename extraction of `epiclog_read_handle_empty`: only a
non-blank, non-NaN string cell yields a filename. -/
def cellFilename : CellVal → Option String
  | .strVal s => if s = "" then none else some s
  | _ => none

/-- `f'{folder_path}{string_filename.replace(".txt", "")}.txt'`. -/
def resolveLogPath (folderPath fn : String) : String :=
  folderPath ++ (fn.replace ".txt" "") ++ ".txt"

/-- `utils.epiclog_read_handle_empty`: `None` when the cell is blank/NaN or
the resolved file does not exist; otherwise the parsed log. -/
def epiclog_read_handle_empty (fs : String → Option (List (ℚ × ℚ)))
    (folderPath : String) (cell : CellVal) : Option (List (ℚ × ℚ)) :=
  match cellFilename cell with
  | none => none
  | some fn => fs (resolveLogPath folderPath fn)

/-- `utils.handle_unit`: `'C'` becomes `'°C'`, `'sccm'` becomes
`'meter ** 3 / second'`, anything else passes through. -/
def handle_unit (unitCell : Option String) : Option String :=
  match unitCell with
  | none => none
  | some u =>
      if u = "C" then some "°C"
      else if u = "sccm" then some "meter ** 3 / second"
      else some u

/-- `(data_array.index.tz_localize(timezone) - growth_starttime)
.total_seconds()` for one sample, with the zone modelled as a fixed
offset. -/
def localizeElapsed (tzOffset growthStarttime t : ℚ) : ℚ :=
  t + tzOffset - growthStarttime

/-- `utils.epiclog_parse_timeseries`: the (pint quantity, relative time
array) pair; both are `None` exactly when the channel read came back
empty. -/
def epiclog_parse_timeseries (tzOffset growthStarttime : ℚ)
    (fs : String → Option (List (ℚ × ℚ))) (folderPath : String)
    (cell : CellVal) (unitCell : Option String) :
    Option (List ℚ × Option String) × Option (List ℚ) :=
  match epiclog_read_handle_empty fs folderPath cell with
  | none => (none, none)
  | some dataArray =>
      (some (dataArray.map Prod.snd, handle_unit unitCell),
        some (dataArray.map fun p =>
          localizeElapsed tzOffset growthStarttime p.1))

/- ================================================================
   Gas-mixing row association for PLASMA sources
   (ParserEpicPDI.parse, parser.py lines 346-376)
   ================================================================ -/

/-- One row of the `MBE gas mixing` sheet: whether both the `date` and
`time` cells are truthy, the `fill_datetime` result (absolute seconds),
and the `mfc_flow` cell. -/
structure GasRow where
  hasDateTime : Bool
  time : ℚ
  mfcFlow : String
deriving DecidableEq

/-- The gas-mixing association loop (parser.py lines 346-376): iterate the
sheet in reverse order; rows without date/time are skipped; when the growth
start time is missing a warning is logged and the row is still appended;
rows strictly after the growth start are skipped via `continue` (the scan
keeps going); every remaining row is appended to the source's gas-flow
list. -/
def gas_rows_for_plasma (growthStarttime : Option ℚ)
    (gasmixingRows : List GasRow) : List GasRow :=
  gasmixingRows.reverse.foldl
    (fun acc gasRow =>
      if gasRow.hasDateTime then
        match growthStarttime with
        | none => acc ++ [gasRow]
        | some epoch =>
            if epoch < gasRow.time then acc else acc ++ [gasRow]
      else acc)
    []

/-- Modelled from the spec: the claimed association — scan the table in
reverse order, accept each row at or before the growth epoch, and stop the
scan at the first row strictly after the epoch. -/
def gas_rows_claimed (epoch : ℚ) (gasmixingRows : List GasRow) :
    List GasRow :=
  gasmixingRows.reverse.takeWhile fun gasRow => decide (gasRow.time ≤ epoch)

/- ================================================================
   Sources-sheet assembly: source list, port list and port references
   (ParserEpicPDI.parse, parser.py lines 303-311 (loop header and source
   instantiation), 577-591 (port objects), 681 (source_object reset))
   ================================================================ -/

/-- The `source_type` discriminant of a sources-sheet row. -/
inductive SourceType where
  | PLASMA
  | SFC
  | DFC
  | CLC
  | SUB
deriving DecidableEq

/-- What the model tracks of one appended Source: the sheet row that
created it and the index written into its
`.../port_list/{sources_index}` cross-reference. -/
structure SourceEntry where
  rowId : ℕ
  portRef : Option ℕ
deriving DecidableEq

/-- Parser state across the sources loop: the process's `sources` list,
the instrument's `port_list` (each entry remembered by the sheet row that
built it), the `source_object` variable (`none` = not yet assigned, raising
`NameError` when read; `some none` = Python `None`; `some (some i)` =
`sources[i]`), and whether an uncaught exception occurred. -/
structure AsmState where
  sources : List SourceEntry
  portList : List ℕ
  current : Option (Option ℕ)
  err : Bool
deriving DecidableEq

/-- Rows that instantiate a Source (everything except `SUB`). -/
def isSourceRow : SourceType → Bool
  | .SUB => false
  | _ => true

/-- Assign `sources[i].port = .../port_list/{r}`. -/
def setPortRef : List SourceEntry → ℕ → ℕ → List SourceEntry
  | [], _, _ => []
  | x :: xs, 0, r => ⟨x.rowId, some r⟩ :: xs
  | x :: xs, i + 1, r => x :: setPortRef xs i r

/-- One iteration of `for sources_index, sources_row in
sources_sheet.iterrows()` (parser.py lines 304-681), restricted to the
source/port bookkeeping:
* non-`SUB` rows append a Source and then evaluate
  `sources[sources_index]`, raising `IndexError` when the row position
  exceeds the list (which happens as soon as a `SUB` row preceded);
* `if source_object:` raises `NameError` when the variable was never
  assigned (first row is `SUB`), skips for Python `None`, and otherwise
  appends the row's `port_object` to `port_list` and writes the
  cross-reference index `sources_index`;
* `source_object = None` at the end of every iteration. -/
def stepSourcesRow (st : AsmState) (idx : ℕ) (ty : SourceType) : AsmState :=
  if st.err then st
  else
    let st1 :=
      if isSourceRow ty then
        let srcs := st.sources ++ [⟨idx, none⟩]
        if idx < srcs.length then
          { st with sources := srcs, current := some (some idx) }
        else { st with sources := srcs, err := true }
      else st
    if st1.err then st1
    else
      let st2 :=
        match st1.current with
        | none => { st1 with err := true }
        | some none => st1
        | some (some i) =>
            { st1 with portList := st1.portList ++ [idx],
                       sources := setPortRef st1.sources i idx }
      if st2.err then st2 else { st2 with current := some none }

/-- The whole sources loop over the sheet's rows (in order, indexed from
0 as `iterrows` does). -/
def assembleSources (rows : List SourceType) : AsmState :=
  rows.enum.foldl (fun st p => stepSourcesRow st p.1 p.2) ⟨[], [], none, false⟩

theorem setFrom_zero (v : List β) (x : β) :
    setFrom v 0 x = List.replicate v.length x := by
  simp [setFrom]

theorem setFrom_cons_succ (a : β) (v : List β) (i : ℕ) (x : β) :
    setFrom (a :: v) (i + 1) x = a :: setFrom v i x := by
  simp [setFrom, List.take_succ_cons]

theorem map_eq_replicate_of {γ : Type} (l : List γ) (g : γ → β) (c : β)
    (h : ∀ x ∈ l, g x = c) : l.map g = List.replicate l.length c := by
  induction l with
  | nil => rfl
  | cons a l ih =>
      rw [List.map_cons, List.length_cons, List.replicate_succ,
        h a (List.mem_cons_self a l),
        ih fun x hx => h x (List.mem_cons_of_mem a hx)]

theorem firstIdxGe_eq_none {c : α} {l : List α} (h : firstIdxGe c l = none) :
    ∀ x ∈ l, ¬ c ≤ x := by
  induction l with
  | nil => simp
  | cons t ts ih =>
      by_cases hct : c ≤ t
      · simp [firstIdxGe, hct] at h
      · intro x hx
        simp only [firstIdxGe, hct, if_false] at h
        have h2 : firstIdxGe c ts = none := by
          cases hfi : firstIdxGe c ts with
          | none => rfl
          | some i => rw [hfi] at h; simp at h
        rcases List.mem_cons.mp hx with hx | hx
        · subst hx; exact hct
        · exact ih h2 x hx

theorem applyShutter_cons_not_le {t : α} {ts : List α} {a : β} {v : List β}
    {s : α × β} (h : ¬ s.1 ≤ t) :
    applyShutter (t :: ts) (a :: v) s = a :: applyShutter ts v s := by
  unfold applyShutter
  simp only [firstIdxGe, h, if_false]
  cases hfind : firstIdxGe s.1 ts with
  | none => simp
  | some i => simp [setFrom_cons_succ]

/-- Key step: applying one shutter row to a vector of the form
`timeVector.map f` (for sorted `timeVector`) replaces the value at every time
`≥` the row's change time. -/
theorem applyShutter_map (tv : List α) (hT : tv.Pairwise (· ≤ ·))
    (f : α → β) (s : α × β) :
    applyShutter tv (tv.map f) s =
      tv.map (fun t => if s.1 ≤ t then s.2 else f t) := by
  induction tv with
  | nil => rfl
  | cons t ts ih =>
      rcases List.pairwise_cons.mp hT with ⟨hhead, htail⟩
      by_cases hst : s.1 ≤ t
      · have hall : ∀ x ∈ t :: ts,
            (fun u => if s.1 ≤ u then s.2 else f u) x = s.2 := by
          intro x hx
          rcases List.mem_cons.mp hx with hx | hx
          · subst hx; exact if_pos hst
          · exact if_pos (le_trans hst (hhead x hx))
        rw [map_eq_replicate_of _ _ _ hall]
        have hidx : firstIdxGe s.1 (t :: ts) = some 0 := by
          simp [firstIdxGe, hst]
        unfold applyShutter
        rw [hidx]
        simp [setFrom_zero]
      · rw [List.map_cons, applyShutter_cons_not_le hst, ih htail,
          List.map_cons, if_neg hst]

/-- Generalized fold invariant: folding shutter rows over `tv.map f`
yields the pointwise "override by the last applicable row, else `f`". -/
theorem foldl_applyShutter (tv : List α) (hT : tv.Pairwise (· ≤ ·))
    (shutters : List (α × β)) (f : α → β) :
    shutters.foldl (applyShutter tv) (tv.map f) =
      tv.map (fun t => holdFrom (f t) shutters t) := by
  induction shutters generalizing f with
  | nil => simp [holdFrom]
  | cons s rest ih =>
      rw [List.foldl_cons, applyShutter_map tv hT f s,
        ih (fun t => if s.1 ≤ t then s.2 else f t)]
      rfl

/-- The shutter vector equals the step-hold resample of the shutter trace
onto the time axis, provided the time axis is non-decreasing. -/
theorem shutterVector_eq_holdAt [Zero β] (shutters : List (α × β))
    (tv : List α) (hT : tv.Pairwise (· ≤ ·)) :
    shutterVector shutters tv = tv.map (holdAt shutters) := by
  have hrepl : List.replicate tv.length (0 : β) = tv.map fun _ => 0 :=
    (map_eq_replicate_of tv (fun _ => 0) 0 (fun _ _ => rfl)).symm
  rw [shutterVector, hrepl, foldl_applyShutter tv hT shutters (fun _ => 0)]
  rfl

/-- Sanity characterization: `holdAt` is the value of the last listed sample
at or before `t` (the most recent one, when samples are listed in time
order), with default `0`. -/
theorem holdFrom_eq_filter_getLast (shutters : List (α × β)) (t : α)
    (d : β) :
    holdFrom d shutters t =
      (((shutters.filter fun s => decide (s.1 ≤ t)).getLast?).map
        Prod.snd).getD d := by
  induction shutters generalizing d with
  | nil => rfl
  | cons s rest ih =>
      show holdFrom (if s.1 ≤ t then s.2 else d) rest t = _
      rw [ih]
      by_cases hst : s.1 ≤ t
      · rw [if_pos hst]
        have hfc : (s :: rest).filter (fun u => decide (u.1 ≤ t)) =
            s :: rest.filter (fun u => decide (u.1 ≤ t)) := by
          simp [List.filter_cons, hst]
        rw [hfc]
        cases hfr : rest.filter (fun u => decide (u.1 ≤ t)) with
        | nil => rfl
        | cons a l =>
            rw [List.getLast?_cons_cons]
            cases hlast : (a :: l).getLast? with
            | none =>
                have := List.getLast?_isSome (l := a :: l)
                rw [hlast] at this
                simp at this
            | some u => rfl
      · rw [if_neg hst]
        have hfc : (s :: rest).filter (fun u => decide (u.1 ≤ t)) =
            rest.filter (fun u => decide (u.1 ≤ t)) := by
          simp [List.filter_cons, hst]
        rw [hfc]

/-- **C1** Shutter step-hold resampling: for a shutter trace listed in
increasing time order and a non-decreasing temperature time axis, the
modulation vector holds, at each time sample, the most recently observed
shutter value at or before that time (`holdAt`, which defaults to `0`
strictly before the first sample); and on the concrete inputs
`[(0,0),(10,1),(20,0)]` over time axis `[5,10,15,25]` it is `[0,1,1,0]`. -/
theorem shutter_step_hold_C1 (shutters : List (ℚ × ℚ)) (tv : List ℚ)
    (hS : (shutters.map Prod.fst).Pairwise (· < ·))
    (hT : tv.Pairwise (· ≤ ·)) :
    shutterVector shutters tv = tv.map (holdAt shutters) ∧
      shutterVector [((0 : ℚ), (0 : ℚ)), (10, 1), (20, 0)] [5, 10, 15, 25] =
        [0, 1, 1, 0] := by
  refine ⟨shutterVector_eq_holdAt shutters tv hT, by decide⟩

/-- Witness for C1 at the spec's concrete inputs. -/
theorem shutter_step_hold_C1_witness :
    shutterVector [((0 : ℚ), (0 : ℚ)), (10, 1), (20, 0)] [5, 10, 15, 25] =
      [5, 10, 15, 25].map (holdAt [((0 : ℚ), (0 : ℚ)), (10, 1), (20, 0)]) :=
  (shutter_step_hold_C1 [((0 : ℚ), (0 : ℚ)), (10, 1), (20, 0)] [5, 10, 15, 25]
    (by decide) (by decide)).1

/- ================================================================
   C2: flux formula
   ================================================================ -/

theorem zipWith_mul_one_right (l : List ℝ) :
    List.zipWith (· * ·) l (List.replicate l.length 1) = l := by
  induction l with
  | nil => rfl
  | cons a l ih => simp [List.replicate_succ, ih]

theorem zipWith_mul_zero_right (l : List ℝ) :
    List.zipWith (· * ·) l (List.replicate l.length 0) =
      List.replicate l.length 0 := by
  induction l with
  | nil => rfl
  | cons a l ih => simp [List.replicate_succ, ih]

/-- **C2** Flux formula: with a matching calibration entry and aligned
lengths, every unmodulated flux sample (no shutter trace, so the vector is
all ones) is `bep_to_flux * exp(a_param) * exp(t0_kelvin /
temperature_kelvin[i])`; and whenever `a_param = 0` and the t0 parameter
converts to 0 kelvin, every raw flux sample equals `bep_to_flux`,
independent of the temperature values. -/
theorem flux_formula_C2 (fitting : String → Option FitEntry)
    (epicLoop : String) (fit : FitEntry) (tempCelsius timeVector : List ℝ)
    (hfit : fitting epicLoop = some fit)
    (hlen : timeVector.length = tempCelsius.length) :
    utils_calculate_impinging_flux fitting epicLoop tempCelsius timeVector
        none =
      .ok ⟨tempCelsius.map fun T =>
          fit.bepToFlux * Real.exp fit.aParam *
            Real.exp (celsiusToKelvin fit.t0Celsius / celsiusToKelvin T),
        true⟩ ∧
    (fit.aParam = 0 → celsiusToKelvin fit.t0Celsius = 0 →
      ∀ x ∈ rawFlux fit tempCelsius, x = fit.bepToFlux) := by
  constructor
  · unfold utils_calculate_impinging_flux
    rw [hfit]
    show Except.ok
        (⟨List.zipWith (· * ·) (rawFlux fit tempCelsius)
          (List.replicate timeVector.length 1), true⟩ : UtilsFluxResult) = _
    have hlen2 : timeVector.length = (rawFlux fit tempCelsius).length := by
      simp [rawFlux, hlen]
    rw [hlen2, zipWith_mul_one_right]
    rfl
  · intro ha ht0 x hx
    obtain ⟨T, _, rfl⟩ := List.mem_map.mp hx
    rw [ha, Real.exp_zero, ht0, zero_div, Real.exp_zero, mul_one, mul_one]

/-- Witness for C2: calibration `a = 0`, `t0 = -273.15 °C` (0 kelvin),
`bep_to_flux = 5`, two arbitrary temperatures. -/
theorem flux_formula_C2_witness :
    utils_calculate_impinging_flux
        (fun l => if l = "L1" then some ⟨0, -273.15, 5⟩ else none) "L1"
        [10, 200] [0, 1] none =
      .ok ⟨[10, 200].map fun T =>
          (⟨0, -273.15, 5⟩ : FitEntry).bepToFlux *
            Real.exp (⟨0, -273.15, 5⟩ : FitEntry).aParam *
            Real.exp
              (celsiusToKelvin (⟨0, -273.15, 5⟩ : FitEntry).t0Celsius /
                celsiusToKelvin T),
        true⟩ :=
  (flux_formula_C2 (fun l => if l = "L1" then some ⟨0, -273.15, 5⟩ else none)
    "L1" ⟨0, -273.15, 5⟩ [10, 200] [0, 1] (by simp) rfl).1

/- ================================================================
   C8: missing calibration entry
   ================================================================ -/

/-- **C8 counterexample**: a channel with no calibration entry.  The claim
says the flux computation "logs a warning" and "does not raise"; instead
`utils.calculate_impinging_flux` raises `UnboundLocalError` (its `return`
reads variables only assigned in the matched branch) and the parser's
inline block skips silently without logging any warning. -/
theorem missing_calibration_C8_counterexample :
    utils_calculate_impinging_flux (fun _ => none) "Ga1" [] [] none =
        .error .unboundLocalError ∧
      parser_flux_block (some fun _ => none) (some "Ga1") false [] [] none =
        ⟨none, false⟩ :=
  ⟨rfl, rfl⟩

/-- **C8 amended**: for a source row whose `EPIC_loop` has no entry in the
parsed calibration table, the parser computes no flux, logs no warning and
does not raise (the row's other fields are filled by later, independent
code), while the standalone `utils.calculate_impinging_flux` raises
`UnboundLocalError` on the same inputs. -/
theorem missing_calibration_C8 (fitting : String → Option FitEntry)
    (epicLoop : String) (tempCelsius timeVector : List ℝ)
    (shutters : Option (List (ℝ × ℝ)))
    (h : fitting epicLoop = none) :
    parser_flux_block (some fitting) (some epicLoop) false tempCelsius
        timeVector shutters = ⟨none, false⟩ ∧
      utils_calculate_impinging_flux fitting epicLoop tempCelsius timeVector
        shutters = .error .unboundLocalError := by
  constructor
  · simp [parser_flux_block, h]
  · simp [utils_calculate_impinging_flux, h]

/-- Witness for C8 at a concrete empty calibration table. -/
theorem missing_calibration_C8_witness :
    parser_flux_block (some fun _ => none) (some "Al") false [1] [2] none =
        ⟨none, false⟩ ∧
      utils_calculate_impinging_flux (fun _ => none) "Al" [1] [2] none =
        .error .unboundLocalError :=
  missing_calibration_C8 (fun _ => none) "Al" [1] [2] none rfl

/- ================================================================
   C9: parser inline flux vs. utils.calculate_impinging_flux
   ================================================================ -/

/-- **C9 counterexample**: with no shutter trace (`shutters is None`) the
two computations differ on the same calibration entry, temperature series
and time vector: utils multiplies by an all-ones vector (flux left
unmodulated) while the parser multiplies by the untouched all-zeros vector
(flux zeroed). -/
theorem refinement_C9_counterexample :
    utils_calculate_impinging_flux (fun _ => some ⟨0, -273.15, 1⟩) "L" [0]
        [0] none = .ok ⟨[1], true⟩ ∧
      parser_modulated_flux ⟨0, -273.15, 1⟩ [0] [0] none = [0] ∧
      ([(1 : ℝ)] ≠ [0]) := by
  refine ⟨?_, ?_, by simp⟩
  · unfold utils_calculate_impinging_flux
    show Except.ok (⟨List.zipWith (· * ·) (rawFlux ⟨0, -273.15, 1⟩ [0])
        (List.replicate 1 1), true⟩ : UtilsFluxResult) = _
    norm_num [rawFlux, celsiusToKelvin, Real.exp_zero]
  · unfold parser_modulated_flux
    show List.zipWith (· * ·) (rawFlux ⟨0, -273.15, 1⟩ [0])
        (List.replicate 1 0) = _
    norm_num [rawFlux, celsiusToKelvin]

/-- **C9 amended**: when a shutter trace is supplied the parser's inline
computation and `utils.calculate_impinging_flux` produce the same modulated
flux; when it is absent they disagree — utils returns the unmodulated raw
flux (all-ones vector, with an error logged), the parser returns all
zeros. -/
theorem refinement_C9 (fitting : String → Option FitEntry)
    (epicLoop : String) (fit : FitEntry) (tempCelsius timeVector : List ℝ)
    (hfit : fitting epicLoop = some fit)
    (hlen : timeVector.length = tempCelsius.length) :
    (∀ sh : List (ℝ × ℝ),
      utils_calculate_impinging_flux fitting epicLoop tempCelsius timeVector
          (some sh) =
        .ok ⟨parser_modulated_flux fit tempCelsius timeVector (some sh),
          false⟩) ∧
    utils_calculate_impinging_flux fitting epicLoop tempCelsius timeVector
        none = .ok ⟨rawFlux fit tempCelsius, true⟩ ∧
    parser_modulated_flux fit tempCelsius timeVector none =
      List.replicate tempCelsius.length 0 := by
  have hlen2 : timeVector.length = (rawFlux fit tempCelsius).length := by
    simp [rawFlux, hlen]
  refine ⟨fun sh => ?_, ?_, ?_⟩
  · unfold utils_calculate_impinging_flux parser_modulated_flux
    rw [hfit]
    rfl
  · unfold utils_calculate_impinging_flux
    rw [hfit]
    show Except.ok (⟨List.zipWith (· * ·) (rawFlux fit tempCelsius)
        (List.replicate timeVector.length 1), true⟩ : UtilsFluxResult) = _
    rw [hlen2, zipWith_mul_one_right]
  · unfold parser_modulated_flux
    show List.zipWith (· * ·) (rawFlux fit tempCelsius)
        (List.replicate timeVector.length 0) = _
    rw [hlen2, zipWith_mul_zero_right]
    simp [rawFlux]

/-- Witness for C9 at a concrete calibration entry and shutter trace. -/
theorem refinement_C9_witness :
    (∀ sh : List (ℝ × ℝ),
      utils_calculate_impinging_flux (fun _ => some ⟨2, 30, 7⟩) "L" [4, 5]
          [0, 10] (some sh) =
        .ok ⟨parser_modulated_flux ⟨2, 30, 7⟩ [4, 5] [0, 10] (some sh),
          false⟩) ∧
    utils_calculate_impinging_flux (fun _ => some ⟨2, 30, 7⟩) "L" [4, 5]
        [0, 10] none = .ok ⟨rawFlux ⟨2, 30, 7⟩ [4, 5], true⟩ ∧
    parser_modulated_flux ⟨2, 30, 7⟩ [4, 5] [0, 10] none =
      List.replicate ([(4 : ℝ), 5]).length 0 :=
  refinement_C9 (fun _ => some ⟨2, 30, 7⟩) "L" ⟨2, 30, 7⟩ [4, 5] [0, 10]
    rfl rfl

/- ================================================================
   C3 and C10: create_archive persistence behavior
   ================================================================ -/

/-- **C3 counterexample**: a second `create_archive` call whose content is
NaN-aware equal to the already-persisted content takes the write branch
(`not file_exists or overwrite or dicts_are_equal`), so a second write does
happen, contrary to the claim's "performs no second write". -/
theorem idempotent_persistence_C3_counterexample :
    dictNanEqual (PyDict.cons "x" PyVal.nan PyDict.nil)
        (PyDict.cons "x" PyVal.nan PyDict.nil) = true ∧
      (create_archive (fun u f => u ++ "-" ++ f) false "u1"
          [("f.archive.yaml", PyDict.cons "x" PyVal.nan PyDict.nil)]
          (PyDict.cons "x" PyVal.nan PyDict.nil) "f.archive.yaml"
          false).wrote = true := by
  decide

/-- **C3 amended**: calling `create_archive` again (non-client context,
overwrite unset) on an existing file returns the same hash reference in
both cases; with NaN-aware-equal content it performs a second write of the
equivalent content, while with different content it performs no write,
leaves the stored file unchanged, and logs the conflict error instead of
raising. -/
theorem idempotent_persistence_C3 (hashFn : String → String → String)
    (uploadId : String) (files : List (String × PyDict))
    (existing entryDict : PyDict) (filename : String)
    (hex : lookupRawFile files filename = some existing) :
    (dictNanEqual existing entryDict = true →
      create_archive hashFn false uploadId files entryDict filename false =
        ⟨writeRawFile files filename entryDict, true, false,
          some (get_hash_ref hashFn uploadId filename)⟩) ∧
    (dictNanEqual existing entryDict = false →
      create_archive hashFn false uploadId files entryDict filename false =
        ⟨files, false, true,
          some (get_hash_ref hashFn uploadId filename)⟩) := by
  have hfe : raw_path_exists files filename = true := by
    rw [raw_path_exists, hex]
    rfl
  constructor <;> intro h <;> simp [create_archive, hex, hfe, h]

/-- Witness for C3 on a one-file store whose content is re-submitted
unchanged. -/
theorem idempotent_persistence_C3_witness :
    (dictNanEqual (PyDict.cons "a" (PyVal.float 1) PyDict.nil)
        (PyDict.cons "a" (PyVal.float 1) PyDict.nil) = true →
      create_archive (fun u f => u ++ "-" ++ f) false "u1"
          [("g.yaml", PyDict.cons "a" (PyVal.float 1) PyDict.nil)]
          (PyDict.cons "a" (PyVal.float 1) PyDict.nil) "g.yaml" false =
        ⟨writeRawFile [("g.yaml", PyDict.cons "a" (PyVal.float 1) PyDict.nil)]
            "g.yaml" (PyDict.cons "a" (PyVal.float 1) PyDict.nil),
          true, false,
          some (get_hash_ref (fun u f => u ++ "-" ++ f) "u1" "g.yaml")⟩) ∧
    (dictNanEqual (PyDict.cons "a" (PyVal.float 1) PyDict.nil)
        (PyDict.cons "a" (PyVal.float 1) PyDict.nil) = false →
      create_archive (fun u f => u ++ "-" ++ f) false "u1"
          [("g.yaml", PyDict.cons "a" (PyVal.float 1) PyDict.nil)]
          (PyDict.cons "a" (PyVal.float 1) PyDict.nil) "g.yaml" false =
        ⟨[("g.yaml", PyDict.cons "a" (PyVal.float 1) PyDict.nil)],
          false, true,
          some (get_hash_ref (fun u f => u ++ "-" ++ f) "u1" "g.yaml")⟩) :=
  idempotent_persistence_C3 (fun u f => u ++ "-" ++ f) "u1"
    [("g.yaml", PyDict.cons "a" (PyVal.float 1) PyDict.nil)]
    (PyDict.cons "a" (PyVal.float 1) PyDict.nil)
    (PyDict.cons "a" (PyVal.float 1) PyDict.nil) "g.yaml" rfl

/-- **C10** On every non-client invocation `create_archive` returns the
hash reference for the destination filename regardless of outcome
(including the conflict branch, where nothing is written and only an error
is logged), and only a client context yields `None`. -/
theorem create_archive_ret_C10 (hashFn : String → String → String)
    (isClientContext : Bool) (uploadId : String)
    (files : List (String × PyDict)) (entryDict : PyDict)
    (filename : String) (overwrite : Bool) :
    (create_archive hashFn isClientContext uploadId files entryDict filename
        overwrite).ret =
      if isClientContext then none
      else some (get_hash_ref hashFn uploadId filename) := by
  cases isClientContext with
  | true => rfl
  | false =>
      unfold create_archive
      simp only [Bool.false_eq_true, if_false]
      split <;> rfl

/- ================================================================
   C4 and C5: per-channel log reads and time alignment
   ================================================================ -/

/-- **C4** Empty-channel tolerance: whenever the cell is blank/NaN (or the
column is absent or the Series empty), or the resolved file does not exist,
`epiclog_read_handle_empty` returns `None` — the functions are total, so no
exception is possible — and `epiclog_parse_timeseries` then returns the
empty aligned result `(None, None)`. -/
theorem empty_channel_C4 (fs : String → Option (List (ℚ × ℚ)))
    (folderPath : String) (cell : CellVal) (unitCell : Option String)
    (tzOffset growthStarttime : ℚ)
    (h : match cellFilename cell with
      | none => True
      | some fn => fs (resolveLogPath folderPath fn) = none) :
    epiclog_read_handle_empty fs folderPath cell = none ∧
      epiclog_parse_timeseries tzOffset growthStarttime fs folderPath cell
        unitCell = (none, none) := by
  have h1 : epiclog_read_handle_empty fs folderPath cell = none := by
    unfold epiclog_read_handle_empty
    cases hc : cellFilename cell with
    | none => rfl
    | some fn =>
        rw [hc] at h
        exact h
  refine ⟨h1, ?_⟩
  unfold epiclog_parse_timeseries
  rw [h1]

/-- Witness for C4 on a NaN cell over an empty filesystem. -/
theorem empty_channel_C4_witness :
    epiclog_read_handle_empty (fun _ => none) "run/" CellVal.nanCell =
        none ∧
      epiclog_parse_timeseries 3600 1000 (fun _ => none) "run/"
        CellVal.nanCell (some "C") = (none, none) :=
  empty_channel_C4 (fun _ => none) "run/" CellVal.nanCell (some "C") 3600
    1000 trivial

theorem localizeElapsed_le_iff (tz e s t : ℚ) :
    localizeElapsed tz e s ≤ localizeElapsed tz e t ↔ s ≤ t := by
  unfold localizeElapsed
  constructor <;> intro h <;> linarith

/-- **C5** Time-alignment: for a channel whose read succeeds, the returned
elapsed-time array is exactly the per-sample
`(timestamp localized to the zone) - growth_epoch` in seconds (no
reordering), and it is monotonically non-decreasing iff the raw timestamps
were. -/
theorem alignment_C5 (tzOffset growthStarttime : ℚ)
    (fs : String → Option (List (ℚ × ℚ))) (folderPath : String)
    (cell : CellVal) (unitCell : Option String) (series : List (ℚ × ℚ))
    (h : epiclog_read_handle_empty fs folderPath cell = some series) :
    (epiclog_parse_timeseries tzOffset growthStarttime fs folderPath cell
        unitCell).2 =
      some (series.map fun p =>
        localizeElapsed tzOffset growthStarttime p.1) ∧
    ((series.map fun p =>
        localizeElapsed tzOffset growthStarttime p.1).Pairwise (· ≤ ·) ↔
      (series.map Prod.fst).Pairwise (· ≤ ·)) := by
  constructor
  · unfold epiclog_parse_timeseries
    rw [h]
  · rw [List.pairwise_map, List.pairwise_map]
    constructor <;> refine fun hp => hp.imp fun hab => ?_
    · exact (localizeElapsed_le_iff _ _ _ _).mp hab
    · exact (localizeElapsed_le_iff _ _ _ _).mpr hab

/-- Witness for C5 on a concrete two-sample log file. -/
theorem alignment_C5_witness :
    (epiclog_parse_timeseries 3600 1000 (fun _ => some [(3, 7), (5, 8)])
        "run/" (CellVal.strVal "T1") (some "C")).2 =
      some ([((3 : ℚ), (7 : ℚ)), (5, 8)].map fun p =>
        localizeElapsed 3600 1000 p.1) ∧
    (([((3 : ℚ), (7 : ℚ)), (5, 8)].map fun p =>
        localizeElapsed 3600 1000 p.1).Pairwise (· ≤ ·) ↔
      ([((3 : ℚ), (7 : ℚ)), (5, 8)].map Prod.fst).Pairwise (· ≤ ·)) :=
  alignment_C5 3600 1000 (fun _ => some [(3, 7), (5, 8)]) "run/"
    (CellVal.strVal "T1") (some "C") [(3, 7), (5, 8)] rfl

/- ================================================================
   C6: gas-mixing association
   ================================================================ -/

/-- **C6 counterexample**: sheet rows at times 5, 20, 10 with growth epoch
15.  The code's reverse scan uses `continue` on the after-epoch row (time
20) and keeps scanning, so it accepts both 10 and 5; the claimed
"stop at the first event after the epoch" scan would accept only 10. -/
theorem gasmixing_C6_counterexample :
    gas_rows_for_plasma (some 15)
        [⟨true, 5, "a"⟩, ⟨true, 20, "b"⟩, ⟨true, 10, "c"⟩] =
      [⟨true, 10, "c"⟩, ⟨true, 5, "a"⟩] ∧
    gas_rows_claimed 15 [⟨true, 5, "a"⟩, ⟨true, 20, "b"⟩, ⟨true, 10, "c"⟩] =
      [⟨true, 10, "c"⟩] ∧
    gas_rows_for_plasma (some 15)
        [⟨true, 5, "a"⟩, ⟨true, 20, "b"⟩, ⟨true, 10, "c"⟩] ≠
      gas_rows_claimed 15
        [⟨true, 5, "a"⟩, ⟨true, 20, "b"⟩, ⟨true, 10, "c"⟩] := by
  decide

theorem gas_step_foldl (epoch : ℚ) (l acc : List GasRow) :
    l.foldl (fun acc gasRow =>
      if gasRow.hasDateTime then
        if epoch < gasRow.time then acc else acc ++ [gasRow]
      else acc) acc =
      acc ++ l.filter fun r => r.hasDateTime && decide (r.time ≤ epoch) := by
  induction l generalizing acc with
  | nil => simp
  | cons r l ih =>
      by_cases h1 : r.hasDateTime <;> by_cases h2 : epoch < r.time
      · simp [h1, h2, not_le.mpr h2, ih]
      · simp [h1, h2, not_lt.mp h2, ih, List.append_assoc]
      · simp [h1, ih]
      · simp [h1, ih]

/-- **C6 amended**: the rows associated to a PLASMA source are obtained by
scanning the gas-mixing table in reverse order and accepting every
date/time-bearing row whose timestamp is at or before the growth epoch;
rows after the epoch are skipped via `continue` and the scan keeps going
(it does not stop at the first such event). -/
theorem gasmixing_C6 (epoch : ℚ) (rows : List GasRow) :
    gas_rows_for_plasma (some epoch) rows =
      rows.reverse.filter fun r =>
        r.hasDateTime && decide (r.time ≤ epoch) := by
  have h := gas_step_foldl epoch rows.reverse []
  rw [List.nil_append] at h
  exact h

/- ================================================================
   C7: port positional indexing
   ================================================================ -/

/-- **C7 counterexample**: sheet `[SFC, SUB, SFC]`.  The claim's running
index would exclude the `SUB` row and give the second source the port at
index 1; the code instead uses the raw `iterrows` position, so the second
source row evaluates `sources[2]` on a 2-element list and the run aborts
with `IndexError`: no port (and no port reference) is ever created for
it. -/
theorem port_index_C7_counterexample :
    (assembleSources [.SFC, .SUB, .SFC]).err = true ∧
      (assembleSources [.SFC, .SUB, .SFC]).sources.map
          SourceEntry.portRef = [some 0, none] ∧
      (assembleSources [.SFC, .SUB, .SFC]).portList = [0] := by
  decide

theorem setPortRef_append (l : List SourceEntry) (x : SourceEntry) (r : ℕ) :
    setPortRef (l ++ [x]) l.length r = l ++ [⟨x.rowId, some r⟩] := by
  induction l with
  | nil => rfl
  | cons a l ih => simp [setPortRef, ih]

theorem stepSourcesRow_good (k : ℕ) (c : Option (Option ℕ))
    (ty : SourceType) (hty : isSourceRow ty = true) :
    stepSourcesRow
        ⟨(List.range k).map (fun i => ⟨i, some i⟩), List.range k, c, false⟩
        k ty =
      ⟨(List.range (k + 1)).map (fun i => ⟨i, some i⟩), List.range (k + 1),
        some none, false⟩ := by
  have hlen :
      ((List.range k).map (fun i => (⟨i, some i⟩ : SourceEntry))).length =
        k := by simp
  have hset :
      setPortRef
          ((List.range k).map (fun i => (⟨i, some i⟩ : SourceEntry)) ++
            [⟨k, none⟩]) k k =
        (List.range k).map (fun i => (⟨i, some i⟩ : SourceEntry)) ++
          [⟨k, some k⟩] := by
    have h :=
      setPortRef_append
        ((List.range k).map (fun i => (⟨i, some i⟩ : SourceEntry)))
        ⟨k, none⟩ k
    rwa [hlen] at h
  have hrange : List.range (k + 1) = List.range k ++ [k] := by
    rw [List.range_succ]
  unfold stepSourcesRow
  simp [hty, hlen, hset, hrange, Nat.lt_succ_self]

theorem foldl_sources_good (rows : List SourceType)
    (h : ∀ ty ∈ rows, isSourceRow ty = true) (k : ℕ)
    (c : Option (Option ℕ)) :
    ∃ c', (List.enumFrom k rows).foldl
        (fun st p => stepSourcesRow st p.1 p.2)
        ⟨(List.range k).map (fun i => ⟨i, some i⟩), List.range k, c,
          false⟩ =
      ⟨(List.range (k + rows.length)).map (fun i => ⟨i, some i⟩),
        List.range (k + rows.length), c', false⟩ := by
  induction rows generalizing k c with
  | nil => exact ⟨c, by simp⟩
  | cons ty rows ih =>
      have hstep := stepSourcesRow_good k c ty (h ty (by simp))
      obtain ⟨c', hc'⟩ :=
        ih (fun t ht => h t (by simp [ht])) (k + 1) (some none)
      refine ⟨c', ?_⟩
      show ((k, ty) :: List.enumFrom (k + 1) rows).foldl
          (fun st p => stepSourcesRow st p.1 p.2) _ = _
      rw [List.foldl_cons]
      show (List.enumFrom (k + 1) rows).foldl
          (fun st p => stepSourcesRow st p.1 p.2)
          (stepSourcesRow _ k ty) = _
      rw [hstep, hc']
      have harith : k + 1 + rows.length = k + (ty :: rows).length := by
        simp only [List.length_cons]
        omega
      rw [harith]

/-- **C7 amended**: the running `sources_index` is the raw sheet row
position (it does not exclude `SUB` rows); on a sheet with no `SUB` rows
the assembly completes, the Nth row's port is appended to the port list at
index N, and every Source's `port` cross-reference index equals the
position of the port created from its own row.  (A source row after a
`SUB` row instead aborts with `IndexError` — see the counterexample.) -/
theorem port_index_C7 (rows : List SourceType)
    (h : ∀ ty ∈ rows, isSourceRow ty = true) :
    (assembleSources rows).err = false ∧
      (assembleSources rows).portList = List.range rows.length ∧
      (assembleSources rows).sources =
        (List.range rows.length).map fun i => ⟨i, some i⟩ := by
  obtain ⟨c', hc'⟩ := foldl_sources_good rows h 0 none
  have hall : assembleSources rows =
      ⟨(List.range (0 + rows.length)).map (fun i => ⟨i, some i⟩),
        List.range (0 + rows.length), c', false⟩ := by
    unfold assembleSources
    exact hc'
  rw [hall]
  simp

/-- Witness for C7 on the all-source sheet `[SFC, PLASMA]`. -/
theorem port_index_C7_witness :
    (assembleSources [SourceType.SFC, SourceType.PLASMA]).err = false ∧
      (assembleSources [SourceType.SFC, SourceType.PLASMA]).portList =
        List.range [SourceType.SFC, SourceType.PLASMA].length ∧
      (assembleSources [SourceType.SFC, SourceType.PLASMA]).sources =
        (List.range [SourceType.SFC, SourceType.PLASMA].length).map
          fun i => ⟨i, some i⟩ :=
  port_index_C7 [SourceType.SFC, SourceType.PLASMA] (by decide)
